import Mathlib

/-!
Verification development for the `allpremarkets` streaming arbitrage-detection
core: a shallow embedding of the event bus (`src/common/bus.py`), the backoff
supervisor (`src/ingest/base.py`), the direct spread engine
(`src/rules/spread.py`) and the hedged spread engine (`src/rules/hedged.py`),
together with theorems about quote stickiness, spread arithmetic, debounce
gating, notional filtering, bus fan-out and retry backoff.

Python floats are embedded as rationals (`ℚ`), optional floats as `Option ℚ`,
timestamps as `Int`, dictionaries as association lists or total functions into
`Option`.  Coroutine suspension points are irrelevant to the claims proved
here: each engine processes one event to completion, so the update functions
are embedded as pure state transformers.
-/

/- ===== Data model (src/common/models.py) ===== -/

/-- `EventType` enumeration from `src/common/models.py`. -/
inductive EventType where
  | book
  | trade
  | listing
  | order
  | fill
  deriving DecidableEq, Repr

/-- The venue identifiers admitted by `MarketEvent.venue`
(`Literal["MEXC","WHALES","BYBIT","HYPERLIQUID","BINANCE","BITGET"]`). -/
inductive Venue where
  | MEXC
  | WHALES
  | BYBIT
  | HYPERLIQUID
  | BINANCE
  | BITGET
  deriving DecidableEq, Repr

/-- `MarketEvent` from `src/common/models.py`.  The opaque diagnostic payloads
(`listing_info`, `raw`) never influence the core and are omitted. -/
structure MarketEvent where
  token : String
  venue : Venue
  instrument : String
  event_type : EventType
  best_bid : Option ℚ := none
  best_ask : Option ℚ := none
  last_price : Option ℚ := none
  size : Option ℚ := none
  bid_size : Option ℚ := none
  ask_size : Option ℚ := none
  notional : Option ℚ := none
  timestamp_ms : Int := 0
  deriving DecidableEq, Repr

/- ===== Direct spread engine state (src/rules/spread.py) ===== -/

/-- `_Quote` of `src/rules/spread.py` (the direct engine's cached quote:
best bid, best ask, notional hint, timestamp; it stores no sizes). -/
structure DirectQuote where
  best_bid : Option ℚ := none
  best_ask : Option ℚ := none
  notional : Option ℚ := none
  timestamp_ms : Int := 0
  deriving DecidableEq, Repr, Inhabited

/-- The per-field overwrite performed by `SpreadEngine._handle_event`
(lines 135-141 of `src/rules/spread.py`): each field is assigned from the
event only when the event's value is not `None`; the timestamp is always
assigned. -/
def DirectQuote.applyBook (q : DirectQuote) (e : MarketEvent) : DirectQuote :=
  { best_bid := match e.best_bid with
      | some b => some b
      | none => q.best_bid
    best_ask := match e.best_ask with
      | some a => some a
      | none => q.best_ask
    notional := match e.notional with
      | some n => some n
      | none => q.notional
    timestamp_ms := e.timestamp_ms }

/-- The direct engine's quote cache `self._quotes`: a nested dict
`token -> venue -> _Quote`, embedded as a total function into `Option`. -/
abbrev DirectCache := String → Venue → Option DirectQuote

/-- `SpreadEngine._handle_event` restricted to its cache effect
(lines 125-141 of `src/rules/spread.py`): non-`book` events are ignored;
a `book` event whose best bid and best ask are both `None` is ignored
entirely (early return before the cache is touched); otherwise the quote
for `(token, venue)` is looked up or created (`setdefault`) and updated. -/
def SpreadEngine.handleEvent (cache : DirectCache) (e : MarketEvent) : DirectCache :=
  if e.event_type ≠ EventType.book then cache
  else if e.best_bid = none ∧ e.best_ask = none then cache
  else fun t v =>
    if t = e.token ∧ v = e.venue then
      some (((cache e.token e.venue).getD {}).applyBook e)
    else cache t v

/- ===== Hedged spread engine state (src/rules/hedged.py) ===== -/

/-- `_Quote` of `src/rules/hedged.py` (the hedged engine's cached quote,
which also tracks bid/ask sizes and a general notional fallback). -/
structure HedgedQuote where
  best_bid : Option ℚ := none
  best_ask : Option ℚ := none
  bid_size : Option ℚ := none
  ask_size : Option ℚ := none
  general_notional : Option ℚ := none
  timestamp_ms : Int := 0
  deriving DecidableEq, Repr, Inhabited

/-- The per-field overwrite performed by `HedgedSpreadEngine._handle_event`
(lines 128-140 of `src/rules/hedged.py`).  Note the `elif`: when the event's
`bid_size` is `None` but its legacy `size` is not, `bid_size` is overwritten
from `size`. -/
def HedgedQuote.applyBook (q : HedgedQuote) (e : MarketEvent) : HedgedQuote :=
  { best_bid := match e.best_bid with
      | some b => some b
      | none => q.best_bid
    best_ask := match e.best_ask with
      | some a => some a
      | none => q.best_ask
    bid_size := match e.bid_size with
      | some s => some s
      | none => match e.size with
        | some s => some s
        | none => q.bid_size
    ask_size := match e.ask_size with
      | some s => some s
      | none => q.ask_size
    general_notional := match e.notional with
      | some n => some n
      | none => q.general_notional
    timestamp_ms := e.timestamp_ms }

/-- The hedged engine's quote cache `self._quotes`. -/
abbrev HedgedCache := String → Venue → Option HedgedQuote

/-- `HedgedSpreadEngine._handle_event` restricted to its cache effect
(lines 121-140 of `src/rules/hedged.py`): non-`book` events are ignored;
for a `book` event the quote is looked up or created (`setdefault`) and
updated — there is no both-fields-absent early return here. -/
def HedgedSpreadEngine.handleEvent (cache : HedgedCache) (e : MarketEvent) : HedgedCache :=
  if e.event_type ≠ EventType.book then cache
  else fun t v =>
    if t = e.token ∧ v = e.venue then
      some (((cache e.token e.venue).getD {}).applyBook e)
    else cache t v

/- ===== Direct spread engine evaluation (src/rules/spread.py) ===== -/

/-- `SpreadConfig` from `src/rules/spread.py`.  `fee_bps` (a Python dict) is
embedded as an association list; `venue_pairs` plays no role in the
per-direction evaluation embedded below and is omitted. -/
structure SpreadConfig where
  min_spread_percent : ℚ
  min_notional_usdt : ℚ
  min_improvement_percent : ℚ
  debounce_seconds : ℚ
  slippage_bps : ℚ
  fee_bps : List (Venue × ℚ)
  deriving DecidableEq, Repr

/-- `dict.get(venue, 0.0)` on the fee map. -/
def feeGet (m : List (Venue × ℚ)) (v : Venue) : ℚ :=
  match m.find? (fun p => decide (p.1 = v)) with
  | some p => p.2
  | none => 0

/-- `SpreadConfig.total_cost_percent` (lines 41-47 of `src/rules/spread.py`):
buy fee + sell fee + slippage, all in basis points, divided by 100. -/
def SpreadConfig.total_cost_percent (cfg : SpreadConfig)
    (buy_venue sell_venue : Venue) : ℚ :=
  (feeGet cfg.fee_bps buy_venue + feeGet cfg.fee_bps sell_venue
    + cfg.slippage_bps) / 100

/-- `SpreadAlert` from `src/rules/spread.py`. -/
structure SpreadAlert where
  token : String
  buy_venue : Venue
  sell_venue : Venue
  buy_price : ℚ
  sell_price : ℚ
  gross_spread_percent : ℚ
  net_spread_percent : ℚ
  reference_notional : ℚ
  updated_at_ms : Int
  deriving DecidableEq, Repr

/-- `SpreadEngine._reference_notional` (lines 209-220 of
`src/rules/spread.py`): collect the non-`None` entries of
`(buy_quote.notional, sell_quote.notional)` and take their minimum;
`None` when both are absent. -/
def SpreadEngine.reference_notional
    (buy_quote sell_quote : DirectQuote) : Option ℚ :=
  match ([buy_quote.notional, sell_quote.notional].filterMap id) with
  | [] => none
  | x :: xs => some (xs.foldl min x)

/-- Debounce key of the direct engine: `(token, buy_venue, sell_venue)`. -/
abbrev DebounceKeyD := String × Venue × Venue

/-- A debounce map `self._last_alert`: key to
`(last emission time, last net spread percent)`. -/
abbrev DebounceMap (κ : Type) := κ → Option (ℚ × ℚ)

/-- Python dict assignment `m[k] = v` on a debounce map. -/
def debSet {κ : Type} [DecidableEq κ] (m : DebounceMap κ) (k : κ)
    (v : ℚ × ℚ) : DebounceMap κ :=
  fun k2 => if k2 = k then some v else m k2

/-- The debounce gate inlined at lines 184-192 of `src/rules/spread.py`:
the evaluation `continue`s (returns `false`) exactly when an entry exists,
`now - last_time` is within the debounce window, and the candidate net
spread is at most `last_spread + min_improvement_percent`. -/
def SpreadEngine.debounceEmits (cfg : SpreadConfig) (last : Option (ℚ × ℚ))
    (now net_spread : ℚ) : Bool :=
  match last with
  | none => true
  | some (last_time, last_spread) =>
    if now - last_time < cfg.debounce_seconds
        ∧ net_spread ≤ last_spread + cfg.min_improvement_percent then
      false
    else
      true

/-- One direction of the body of `SpreadEngine._evaluate_spreads`
(lines 152-204 of `src/rules/spread.py`): given the two venues' cached
quotes (absent when `venue_quotes.get` misses), the current monotonic time
and the debounce map, return the alert that will be emitted, or `none` when
any gate skips the direction.  The `math.isnan` guard never fires over `ℚ`
(a rational is never NaN) and so has no embedded branch. -/
def SpreadEngine.evalDirection (cfg : SpreadConfig)
    (lastAlert : DebounceMap DebounceKeyD) (now : ℚ) (token : String)
    (buy_venue sell_venue : Venue)
    (buy_quote? sell_quote? : Option DirectQuote) : Option SpreadAlert :=
  match buy_quote?, sell_quote? with
  | some buy_quote, some sell_quote =>
    match buy_quote.best_ask, sell_quote.best_bid with
    | some buy_ask, some sell_bid =>
      if buy_ask ≤ 0 then none
      else
        let gross_spread := (sell_bid - buy_ask) / buy_ask * 100
        let cost := cfg.total_cost_percent buy_venue sell_venue
        let net_spread := gross_spread - cost
        if net_spread < cfg.min_spread_percent then none
        else
          match SpreadEngine.reference_notional buy_quote sell_quote with
          | none => none
          | some ref =>
            if ref < cfg.min_notional_usdt then none
            else
              if SpreadEngine.debounceEmits cfg
                  (lastAlert (token, buy_venue, sell_venue)) now net_spread then
                some { token := token
                       buy_venue := buy_venue
                       sell_venue := sell_venue
                       buy_price := buy_ask
                       sell_price := sell_bid
                       gross_spread_percent := gross_spread
                       net_spread_percent := net_spread
                       reference_notional := ref
                       updated_at_ms :=
                         max buy_quote.timestamp_ms sell_quote.timestamp_ms }
              else none
    | _, _ => none
  | _, _ => none

/-- Outcome of one invocation of the alert-sink callback: it either returns
normally or raises. -/
inductive CbOutcome where
  | ok
  | raises
  deriving DecidableEq, Repr

/-- The emission tail of `SpreadEngine._evaluate_spreads` (lines 194-207 of
`src/rules/spread.py`): when a direction qualifies, the alert callback is
awaited and only after it returns normally is the debounce entry assigned.
Returns the resulting debounce map, the alert handed to the callback (if
any), and whether the evaluation completed without the callback raising. -/
def SpreadEngine.emitStep (cfg : SpreadConfig)
    (lastAlert : DebounceMap DebounceKeyD) (now : ℚ) (token : String)
    (buy_venue sell_venue : Venue)
    (buy_quote? sell_quote? : Option DirectQuote) (cb : CbOutcome) :
    DebounceMap DebounceKeyD × Option SpreadAlert × Bool :=
  match SpreadEngine.evalDirection cfg lastAlert now token buy_venue
      sell_venue buy_quote? sell_quote? with
  | none => (lastAlert, none, true)
  | some alert =>
    match cb with
    | CbOutcome.ok =>
      (debSet lastAlert (token, buy_venue, sell_venue)
        (now, alert.net_spread_percent), some alert, true)
    | CbOutcome.raises => (lastAlert, some alert, false)

/- ===== Hedged spread engine evaluation (src/rules/hedged.py) ===== -/

/-- `HedgedSpreadConfig` from `src/rules/hedged.py` (`pairs` plays no role in
the per-direction evaluation embedded below and is omitted). -/
structure HedgedSpreadConfig where
  min_spread_percent : ℚ
  min_notional_usdt : ℚ
  min_improvement_percent : ℚ
  debounce_seconds : ℚ
  slippage_bps : ℚ
  fee_bps : List (Venue × ℚ)
  deriving DecidableEq, Repr

/-- `HedgedSpreadConfig.total_cost_percent` (lines 38-44 of
`src/rules/hedged.py`). -/
def HedgedSpreadConfig.total_cost_percent (cfg : HedgedSpreadConfig)
    (order_venue perp_venue : Venue) : ℚ :=
  (feeGet cfg.fee_bps order_venue + feeGet cfg.fee_bps perp_venue
    + cfg.slippage_bps) / 100

/-- `HedgedPair` from `src/rules/hedged.py`. -/
structure HedgedPair where
  order_venue : Venue
  perp_venue : Venue
  deriving DecidableEq, Repr

/-- The two direction tags used in hedged debounce keys and alerts. -/
inductive HedgeDirection where
  | order_buy_perp_sell
  | perp_buy_order_sell
  deriving DecidableEq, Repr

/-- `HedgedSpreadAlert` from `src/rules/hedged.py`. -/
structure HedgedSpreadAlert where
  token : String
  order_venue : Venue
  perp_venue : Venue
  direction : HedgeDirection
  order_price : ℚ
  perp_price : ℚ
  gross_spread_percent : ℚ
  net_spread_percent : ℚ
  reference_notional : ℚ
  updated_at_ms : Int
  deriving DecidableEq, Repr

/-- The `side` string argument of `HedgedSpreadEngine._side_notional`. -/
inductive QuoteSide where
  | ask
  | bid
  deriving DecidableEq, Repr

/-- `HedgedSpreadEngine._side_notional` (lines 268-277 of
`src/rules/hedged.py`): prefer the side's price × size product when both are
known, else fall back to the quote's general notional (possibly absent). -/
def HedgedSpreadEngine.side_notional (quote : HedgedQuote)
    (side : QuoteSide) : Option ℚ :=
  match side with
  | QuoteSide.ask =>
    match quote.best_ask, quote.ask_size with
    | some price, some size => some (price * size)
    | _, _ => quote.general_notional
  | QuoteSide.bid =>
    match quote.best_bid, quote.bid_size with
    | some price, some size => some (price * size)
    | _, _ => quote.general_notional

/-- `HedgedSpreadEngine._reference_notional` (lines 251-266 of
`src/rules/hedged.py`): minimum of the known per-side notionals, `None`
when both are absent. -/
def HedgedSpreadEngine.reference_notional (order_quote perp_quote : HedgedQuote)
    (order_side perp_side : QuoteSide) : Option ℚ :=
  match ([HedgedSpreadEngine.side_notional order_quote order_side,
          HedgedSpreadEngine.side_notional perp_quote perp_side].filterMap id) with
  | [] => none
  | x :: xs => some (xs.foldl min x)

/-- Debounce key of the hedged engine:
`(token, order_venue, perp_venue, direction)`. -/
abbrev DebounceKeyH := String × Venue × Venue × HedgeDirection

/-- `HedgedSpreadEngine._should_emit` (lines 279-287 of
`src/rules/hedged.py`): emit when no entry exists or the window has elapsed;
within the window, emit when `spread - last_spread` is at least the minimum
improvement (a greater-or-equal comparison). -/
def HedgedSpreadEngine.should_emit (cfg : HedgedSpreadConfig)
    (lastAlert : DebounceMap DebounceKeyH) (key : DebounceKeyH)
    (now spread : ℚ) : Bool :=
  match lastAlert key with
  | none => true
  | some (last_time, last_spread) =>
    if now - last_time < cfg.debounce_seconds then
      decide (spread - last_spread ≥ cfg.min_improvement_percent)
    else
      true

/-- `HedgedSpreadEngine._check_order_buy_perp_sell` (lines 159-203 of
`src/rules/hedged.py`), with the alert-sink callback outcome made explicit:
returns the resulting debounce map, the alert handed to the callback (if
any), and whether the call completed without the callback raising. -/
def HedgedSpreadEngine.check_order_buy_perp_sell (cfg : HedgedSpreadConfig)
    (lastAlert : DebounceMap DebounceKeyH) (token : String) (pair : HedgedPair)
    (order_quote perp_quote : HedgedQuote) (now : ℚ) (cb : CbOutcome) :
    DebounceMap DebounceKeyH × Option HedgedSpreadAlert × Bool :=
  match order_quote.best_ask, perp_quote.best_bid with
  | some order_ask, some perp_bid =>
    if order_ask ≤ 0 then (lastAlert, none, true)
    else
      let gross := (perp_bid - order_ask) / order_ask * 100
      let cost := cfg.total_cost_percent pair.order_venue pair.perp_venue
      let net := gross - cost
      if net < cfg.min_spread_percent then (lastAlert, none, true)
      else
        match HedgedSpreadEngine.reference_notional order_quote perp_quote
            QuoteSide.ask QuoteSide.bid with
        | none => (lastAlert, none, true)
        | some notional =>
          if notional < cfg.min_notional_usdt then (lastAlert, none, true)
          else
            let key : DebounceKeyH :=
              (token, pair.order_venue, pair.perp_venue,
                HedgeDirection.order_buy_perp_sell)
            if HedgedSpreadEngine.should_emit cfg lastAlert key now net then
              let alert : HedgedSpreadAlert :=
                { token := token
                  order_venue := pair.order_venue
                  perp_venue := pair.perp_venue
                  direction := HedgeDirection.order_buy_perp_sell
                  order_price := order_ask
                  perp_price := perp_bid
                  gross_spread_percent := gross
                  net_spread_percent := net
                  reference_notional := notional
                  updated_at_ms :=
                    max order_quote.timestamp_ms perp_quote.timestamp_ms }
              match cb with
              | CbOutcome.ok => (debSet lastAlert key (now, net), some alert, true)
              | CbOutcome.raises => (lastAlert, some alert, false)
            else (lastAlert, none, true)
  | _, _ => (lastAlert, none, true)

/-- `HedgedSpreadEngine._check_perp_buy_order_sell` (lines 205-249 of
`src/rules/hedged.py`), with the alert-sink callback outcome made
explicit. -/
def HedgedSpreadEngine.check_perp_buy_order_sell (cfg : HedgedSpreadConfig)
    (lastAlert : DebounceMap DebounceKeyH) (token : String) (pair : HedgedPair)
    (order_quote perp_quote : HedgedQuote) (now : ℚ) (cb : CbOutcome) :
    DebounceMap DebounceKeyH × Option HedgedSpreadAlert × Bool :=
  match perp_quote.best_ask, order_quote.best_bid with
  | some perp_ask, some order_bid =>
    if perp_ask ≤ 0 then (lastAlert, none, true)
    else
      let gross := (order_bid - perp_ask) / perp_ask * 100
      let cost := cfg.total_cost_percent pair.order_venue pair.perp_venue
      let net := gross - cost
      if net < cfg.min_spread_percent then (lastAlert, none, true)
      else
        match HedgedSpreadEngine.reference_notional order_quote perp_quote
            QuoteSide.bid QuoteSide.ask with
        | none => (lastAlert, none, true)
        | some notional =>
          if notional < cfg.min_notional_usdt then (lastAlert, none, true)
          else
            let key : DebounceKeyH :=
              (token, pair.order_venue, pair.perp_venue,
                HedgeDirection.perp_buy_order_sell)
            if HedgedSpreadEngine.should_emit cfg lastAlert key now net then
              let alert : HedgedSpreadAlert :=
                { token := token
                  order_venue := pair.order_venue
                  perp_venue := pair.perp_venue
                  direction := HedgeDirection.perp_buy_order_sell
                  order_price := order_bid
                  perp_price := perp_ask
                  gross_spread_percent := gross
                  net_spread_percent := net
                  reference_notional := notional
                  updated_at_ms :=
                    max order_quote.timestamp_ms perp_quote.timestamp_ms }
              match cb with
              | CbOutcome.ok => (debSet lastAlert key (now, net), some alert, true)
              | CbOutcome.raises => (lastAlert, some alert, false)
            else (lastAlert, none, true)
  | _, _ => (lastAlert, none, true)

/- ===== Event bus (src/common/bus.py) ===== -/

/-- State of an `EventBus`: the registered subscriber queues (`self._subscribers`,
a Python set, represented by the identifiers of live queues) and the contents
of every queue ever created (FIFO lists, newest item last).  `next_id` supplies
a fresh identity for each queue object created by `subscribe`. -/
structure BusState (α : Type) where
  subscribers : List ℕ
  queues : ℕ → List α
  next_id : ℕ

/-- `EventBus.subscribe` (lines 30-35 of `src/common/bus.py`): create a new
empty queue, register it, and return it (its identifier here). -/
def EventBus.subscribe {α : Type} (s : BusState α) : ℕ × BusState α :=
  (s.next_id,
   { subscribers := s.next_id :: s.subscribers
     queues := fun q => if q = s.next_id then [] else s.queues q
     next_id := s.next_id + 1 })

/-- `EventBus.unsubscribe` (lines 37-40 of `src/common/bus.py`):
`self._subscribers.discard(queue)` — remove the queue from the subscriber
set (a no-op when it is not registered); its contents are untouched. -/
def EventBus.unsubscribe {α : Type} (s : BusState α) (q : ℕ) : BusState α :=
  { s with subscribers := s.subscribers.filter (fun x => decide (¬ x = q)) }

/-- `EventBus.publish` (lines 19-28 of `src/common/bus.py`): snapshot the
subscriber set; if it is empty, return; otherwise put `item` on every
subscribed queue (each queue receives exactly one copy, appended in FIFO
order). -/
def EventBus.publish {α : Type} (s : BusState α) (item : α) : BusState α :=
  if s.subscribers.isEmpty then s
  else
    { s with queues := fun q =>
        if q ∈ s.subscribers then s.queues q ++ [item] else s.queues q }

/-- A sequence of `publish` calls, in order. -/
def EventBus.publishAll {α : Type} (s : BusState α) (items : List α) : BusState α :=
  items.foldl EventBus.publish s

/- ===== Backoff supervisor (src/ingest/base.py) ===== -/

/-- `BackoffConfig` from `src/ingest/base.py`, with its field defaults. -/
structure BackoffConfig where
  initial : ℚ := 1
  maximum : ℚ := 30
  multiplier : ℚ := 2
  deriving DecidableEq, Repr

/-- The delay used for the `n`-th sleep of `IngestClient._run_with_retries`
on a fresh start: `delay = self._backoff.initial` before the loop, then
`delay = min(delay * self._backoff.multiplier, self._backoff.maximum)` after
each sleep. -/
def BackoffConfig.delaySeq (cfg : BackoffConfig) : ℕ → ℚ
  | 0 => cfg.initial
  | n + 1 => min (cfg.delaySeq n * cfg.multiplier) cfg.maximum

/-- Observable actions of one supervisor loop: a `run_once` attempt (with the
iteration index and whether that attempt raised an error, which the loop
swallows), or a backoff sleep with its delay. -/
inductive SupEvent where
  | attempt (n : ℕ) (errored : Bool)
  | sleep (delay : ℚ)
  deriving DecidableEq, Repr

/-- The loop body of `IngestClient._run_with_retries` (lines 61-74 of
`src/ingest/base.py`), step-indexed by `fuel` (the loop itself is unbounded;
`fuel` only truncates the observed trace).  The stop flag `self._stopped` is
set concurrently by `stop()`; `stopObs k` is the value the loop reads at its
`k`-th check of the flag — check `2*n` is the `while` guard of iteration `n`
and check `2*n + 1` is the post-attempt `if` of iteration `n`.  `errors n`
tells whether the `n`-th `run_once` raises; either way the loop continues
(the exception is logged and swallowed), so `errors` influences only the
recorded attempt outcome, never the control flow or the delay. -/
def IngestClient.runWithRetries (cfg : BackoffConfig) (errors : ℕ → Bool)
    (stopObs : ℕ → Bool) : ℕ → ℚ → ℕ → List SupEvent
  | 0, _, _ => []
  | fuel + 1, delay, n =>
    if stopObs (2 * n) then []
    else
      SupEvent.attempt n (errors n) ::
        (if stopObs (2 * n + 1) then []
         else SupEvent.sleep delay ::
           IngestClient.runWithRetries cfg errors stopObs fuel
             (min (delay * cfg.multiplier) cfg.maximum) (n + 1))

/-- The trace of a freshly started supervisor observed for `fuel` loop
iterations (`delay` starts at `initial`, the iteration counter at 0). -/
def IngestClient.traceFromStart (cfg : BackoffConfig) (errors : ℕ → Bool)
    (stopObs : ℕ → Bool) (fuel : ℕ) : List SupEvent :=
  IngestClient.runWithRetries cfg errors stopObs fuel cfg.initial 0

/-- The sleep delays of a trace, in order. -/
def sleepsOf (t : List SupEvent) : List ℚ :=
  t.filterMap (fun e => match e with
    | SupEvent.sleep d => some d
    | _ => none)

/- ===== Helper lemmas ===== -/

/-- Unfolding of `SpreadEngine.evalDirection` once both prices are present and
the ask is positive. -/
theorem evalDirection_unfold (cfg : SpreadConfig)
    (lastAlert : DebounceMap DebounceKeyD) (now : ℚ) (token : String)
    (buy_venue sell_venue : Venue) (bq sq : DirectQuote) (a b : ℚ)
    (ha : bq.best_ask = some a) (hb : sq.best_bid = some b) (hpos : 0 < a) :
    SpreadEngine.evalDirection cfg lastAlert now token buy_venue sell_venue
      (some bq) (some sq) =
      (if (b - a) / a * 100 - cfg.total_cost_percent buy_venue sell_venue
          < cfg.min_spread_percent then none
       else
         match SpreadEngine.reference_notional bq sq with
         | none => none
         | some ref =>
           if ref < cfg.min_notional_usdt then none
           else
             if SpreadEngine.debounceEmits cfg
                 (lastAlert (token, buy_venue, sell_venue)) now
                 ((b - a) / a * 100
                   - cfg.total_cost_percent buy_venue sell_venue) then
               some { token := token
                      buy_venue := buy_venue
                      sell_venue := sell_venue
                      buy_price := a
                      sell_price := b
                      gross_spread_percent := (b - a) / a * 100
                      net_spread_percent := (b - a) / a * 100
                        - cfg.total_cost_percent buy_venue sell_venue
                      reference_notional := ref
                      updated_at_ms := max bq.timestamp_ms sq.timestamp_ms }
             else none) := by
  unfold SpreadEngine.evalDirection
  simp only [ha, hb]
  rw [if_neg (not_le.mpr hpos)]

/- ===== C5: direct-engine reference notional ===== -/

/-- Concrete book event for the C5 counterexample: the buy venue reports a
best ask of 1 with ask size 100, but no notional hint. -/
def c5_event_buy : MarketEvent :=
  { token := "XYZ", venue := Venue.MEXC, instrument := "XYZ_USDT",
    event_type := EventType.book, best_ask := some 1, ask_size := some 100,
    timestamp_ms := 1 }

/-- Concrete book event for the C5 counterexample: the sell venue reports a
best bid of 2 with bid size 50, but no notional hint. -/
def c5_event_sell : MarketEvent :=
  { token := "XYZ", venue := Venue.WHALES, instrument := "XYZ",
    event_type := EventType.book, best_bid := some 2, bid_size := some 50,
    timestamp_ms := 2 }

/-- The direct engine's cache after ingesting the two C5 events. -/
def c5_cache : DirectCache :=
  SpreadEngine.handleEvent
    (SpreadEngine.handleEvent (fun _ _ => none) c5_event_buy) c5_event_sell

/-- C5 counterexample.  The claim says the direct engine uses, for each side,
the best price × size product when both price and size are known (here: buy
side 1 × 100, sell side 2 × 50, so a reference notional of
min(100, 100) = 100).  But the direct engine's `_Quote` retains no sizes, so
after ingesting two book events that carry both prices and sizes (and no
notional hints), `SpreadEngine._reference_notional` yields `None`, not
`some 100`: the price × size branch of the claim does not exist in the
direct engine. -/
theorem claim_C5_counterexample :
    c5_event_buy.best_ask = some 1 ∧ c5_event_buy.ask_size = some 100 ∧
    c5_event_buy.notional = none ∧
    c5_event_sell.best_bid = some 2 ∧ c5_event_sell.bid_size = some 50 ∧
    c5_event_sell.notional = none ∧
    c5_cache "XYZ" Venue.MEXC = some { best_ask := some 1, timestamp_ms := 1 } ∧
    c5_cache "XYZ" Venue.WHALES = some { best_bid := some 2, timestamp_ms := 2 } ∧
    SpreadEngine.reference_notional
      { best_ask := some 1, timestamp_ms := 1 }
      { best_bid := some 2, timestamp_ms := 2 } = none ∧
    min ((1 : ℚ) * 100) (2 * 50) = 100 ∧
    (none : Option ℚ) ≠ some (min ((1 : ℚ) * 100) (2 * 50)) := by
  refine ⟨rfl, rfl, rfl, rfl, rfl, rfl, ?_, ?_, ?_, ?_, ?_⟩
  · simp [c5_cache, SpreadEngine.handleEvent, c5_event_buy, c5_event_sell,
      DirectQuote.applyBook]
  · simp [c5_cache, SpreadEngine.handleEvent, c5_event_buy, c5_event_sell,
      DirectQuote.applyBook]
  · simp [SpreadEngine.reference_notional]
  · norm_num
  · simp

/-- C5 (amended): in the direct spread engine each side's notional used for
the reference-notional computation is that side's provided fallback notional
value when present, else absent — the direct engine's quote cache retains no
sizes, so a best price × size product is never computed; the reference
notional is the smaller of the two sides' known notional values. -/
theorem claim_C5_amended_reference_notional (b s : DirectQuote) :
    SpreadEngine.reference_notional b s =
      match b.notional, s.notional with
      | some x, some y => some (min x y)
      | some x, none => some x
      | none, some y => some y
      | none, none => none := by
  rcases hb : b.notional with _ | x <;> rcases hs : s.notional with _ | y <;>
    simp [SpreadEngine.reference_notional, hb, hs]

/- ===== C6: no alert without usable notional ===== -/

/-- Configuration for the C6 counterexample: permissive thresholds, no fees,
no slippage. -/
def c6_cfg : SpreadConfig :=
  { min_spread_percent := 0, min_notional_usdt := 0,
    min_improvement_percent := 0, debounce_seconds := 10,
    slippage_bps := 0, fee_bps := [] }

/-- C6 counterexample.  The claim says that when either side's notional is
undeterminable and that side has no fallback notional, no alert is emitted.
Here the buy side has no notional at all (`buy_quote.notional = none`), yet
the evaluation emits an alert: `_reference_notional` only skips when *both*
sides lack a notional, and otherwise takes the minimum over the known side(s)
(here the sell side's 150). -/
theorem claim_C6_counterexample :
    ({ best_ask := some 1, timestamp_ms := 1 } : DirectQuote).notional = none ∧
    SpreadEngine.evalDirection c6_cfg (fun _ => none) 0 "XYZ" Venue.MEXC
      Venue.WHALES
      (some { best_ask := some 1, timestamp_ms := 1 })
      (some { best_bid := some 2, notional := some 150, timestamp_ms := 2 }) =
      some { token := "XYZ", buy_venue := Venue.MEXC,
             sell_venue := Venue.WHALES, buy_price := 1, sell_price := 2,
             gross_spread_percent := 100, net_spread_percent := 100,
             reference_notional := 150, updated_at_ms := 2 } := by
  refine ⟨rfl, ?_⟩
  simp only [SpreadEngine.evalDirection, SpreadEngine.reference_notional,
    SpreadEngine.debounceEmits, SpreadConfig.total_cost_percent, feeGet,
    c6_cfg, List.find?, List.filterMap]
  norm_num

/-- C6 (amended): for every direct-spread evaluation in which *both* sides'
notionals are undeterminable (the direct engine's only per-side notional
source is the quote's fallback `notional` field, and neither side has one),
no alert is emitted for that evaluation, regardless of how large the net
spread is.  When at least one side has a known notional, the evaluation can
emit (the reference notional is the minimum over the known sides), as the
counterexample shows. -/
theorem claim_C6_amended_no_alert (cfg : SpreadConfig)
    (lastAlert : DebounceMap DebounceKeyD) (now : ℚ) (token : String)
    (buy_venue sell_venue : Venue) (bq sq : DirectQuote)
    (hb : bq.notional = none) (hs : sq.notional = none) :
    SpreadEngine.evalDirection cfg lastAlert now token buy_venue sell_venue
      (some bq) (some sq) = none := by
  have href : SpreadEngine.reference_notional bq sq = none := by
    simp [SpreadEngine.reference_notional, hb, hs]
  unfold SpreadEngine.evalDirection
  rcases hask : bq.best_ask with _ | a <;>
    rcases hbid : sq.best_bid with _ | b <;>
      simp only [hask, hbid, href]
  split
  · rfl
  · split <;> rfl

/-- Witness for C6 (amended): a concrete evaluation with both notionals
absent and an enormous spread emits nothing. -/
theorem claim_C6_amended_witness :
    SpreadEngine.evalDirection c6_cfg (fun _ => none) 0 "XYZ" Venue.MEXC
      Venue.WHALES
      (some { best_ask := some 1, timestamp_ms := 1 })
      (some { best_bid := some 2, timestamp_ms := 2 }) = none :=
  claim_C6_amended_no_alert c6_cfg (fun _ => none) 0 "XYZ" Venue.MEXC
    Venue.WHALES _ _ rfl rfl

/- ===== C2: gross and net spread formulas ===== -/

/-- C2: for every direct-spread evaluation where the buy side has a present
ask `a`, the sell side a present bid `b`, and `a > 0`, any emitted alert
carries gross spread percent `(b - a) / a * 100` and net spread percent
`gross - (fee_bps[buy] + fee_bps[sell] + slippage_bps) / 100`, where a venue
missing from the fee map contributes 0 (third conjunct). -/
theorem claim_C2_spread_formulas (cfg : SpreadConfig)
    (lastAlert : DebounceMap DebounceKeyD) (now : ℚ) (token : String)
    (buy_venue sell_venue : Venue) (bq sq : DirectQuote) (a b : ℚ)
    (ha : bq.best_ask = some a) (hb : sq.best_bid = some b) (hpos : 0 < a)
    (alert : SpreadAlert)
    (hemit : SpreadEngine.evalDirection cfg lastAlert now token buy_venue
      sell_venue (some bq) (some sq) = some alert) :
    alert.gross_spread_percent = (b - a) / a * 100 ∧
    alert.net_spread_percent = (b - a) / a * 100 -
      (feeGet cfg.fee_bps buy_venue + feeGet cfg.fee_bps sell_venue
        + cfg.slippage_bps) / 100 ∧
    (∀ v : Venue, cfg.fee_bps.find? (fun p => decide (p.1 = v)) = none →
      feeGet cfg.fee_bps v = 0) := by
  have hfee : ∀ v : Venue,
      cfg.fee_bps.find? (fun p => decide (p.1 = v)) = none →
        feeGet cfg.fee_bps v = 0 := by
    intro v hv
    unfold feeGet
    rw [hv]
  rw [evalDirection_unfold cfg lastAlert now token buy_venue sell_venue bq sq
    a b ha hb hpos] at hemit
  split at hemit
  · exact absurd hemit (by simp)
  · split at hemit
    · exact absurd hemit (by simp)
    · split at hemit
      · exact absurd hemit (by simp)
      · split at hemit
        · injection hemit with h
          subst h
          refine ⟨rfl, ?_, hfee⟩
          simp [SpreadConfig.total_cost_percent]
        · exact absurd hemit (by simp)

/-- Configuration of the C2/C3 witness scenario (the spec's §8 scenario:
pair (MEXC, WHALES), fees 10 and 20 bps, slippage 5 bps). -/
def c2_cfg : SpreadConfig :=
  { min_spread_percent := 1/2, min_notional_usdt := 50,
    min_improvement_percent := 1/10, debounce_seconds := 30,
    slippage_bps := 5, fee_bps := [(Venue.MEXC, 10), (Venue.WHALES, 20)] }

/-- Buy-side quote of the C2 witness: ask 1.00, notional 150. -/
def c2_buy_quote : DirectQuote :=
  { best_bid := some (99/100), best_ask := some 1, notional := some 150,
    timestamp_ms := 1 }

/-- Sell-side quote of the C2 witness: bid 1.05, notional 200. -/
def c2_sell_quote : DirectQuote :=
  { best_bid := some (21/20), best_ask := some (53/50), notional := some 200,
    timestamp_ms := 2 }

/-- The alert emitted in the C2 witness scenario. -/
def c2_alert : SpreadAlert :=
  { token := "ABC", buy_venue := Venue.MEXC, sell_venue := Venue.WHALES,
    buy_price := 1, sell_price := 21/20, gross_spread_percent := 5,
    net_spread_percent := 5 - 35/100, reference_notional := 150,
    updated_at_ms := 2 }

/-- The C2 witness scenario really emits `c2_alert`. -/
theorem c2_emits :
    SpreadEngine.evalDirection c2_cfg (fun _ => none) 0 "ABC" Venue.MEXC
      Venue.WHALES (some c2_buy_quote) (some c2_sell_quote) = some c2_alert := by
  simp only [SpreadEngine.evalDirection, SpreadEngine.reference_notional,
    SpreadEngine.debounceEmits, SpreadConfig.total_cost_percent, feeGet,
    c2_cfg, c2_buy_quote, c2_sell_quote, c2_alert, List.find?, List.filterMap]
  norm_num [show decide (Venue.MEXC = Venue.WHALES) = false from rfl]

/-- Witness for C2: with buy ask 1.00 and sell bid 1.05, fees 10 + 20 bps and
slippage 5 bps, the emitted alert's gross spread is exactly 5.00% and its net
spread is gross minus 0.35%. -/
theorem claim_C2_witness :
    c2_alert.gross_spread_percent = ((21/20 : ℚ) - 1) / 1 * 100 ∧
    c2_alert.net_spread_percent = ((21/20 : ℚ) - 1) / 1 * 100 -
      (feeGet c2_cfg.fee_bps Venue.MEXC + feeGet c2_cfg.fee_bps Venue.WHALES
        + c2_cfg.slippage_bps) / 100 ∧
    c2_alert.gross_spread_percent = 5 := by
  have h := claim_C2_spread_formulas c2_cfg (fun _ => none) 0 "ABC" Venue.MEXC
    Venue.WHALES c2_buy_quote c2_sell_quote 1 (21/20) rfl rfl (by norm_num)
    c2_alert c2_emits
  exact ⟨h.1, h.2.1, by rw [h.1]; norm_num⟩

/- ===== C3: direct-engine debounce gate ===== -/

/-- Characterization of the inline debounce gate of
`SpreadEngine._evaluate_spreads`: it lets the emission through exactly when
no entry exists, the window has elapsed, or the candidate net spread strictly
exceeds the recorded spread plus the minimum improvement. -/
theorem debounceEmits_eq_true_iff (cfg : SpreadConfig) (last : Option (ℚ × ℚ))
    (now net : ℚ) :
    SpreadEngine.debounceEmits cfg last now net = true ↔
      (match last with
       | none => True
       | some (last_time, last_spread) =>
         cfg.debounce_seconds ≤ now - last_time ∨
           last_spread + cfg.min_improvement_percent < net) := by
  rcases last with _ | ⟨last_time, last_spread⟩
  · simp [SpreadEngine.debounceEmits]
  · simp only [SpreadEngine.debounceEmits]
    split
    · rename_i h
      exact iff_of_false (by simp) (by
        rw [not_or]
        exact ⟨not_le.mpr h.1, not_lt.mpr h.2⟩)
    · rename_i h
      refine iff_of_true rfl ?_
      rcases not_and_or.mp h with h1 | h2
      · exact Or.inl (not_lt.mp h1)
      · exact Or.inr (not_le.mp h2)

/-- Unfolding of `SpreadEngine.evalDirection` for a fully qualifying
direction: both prices present, positive ask, net spread at or above the
minimum, reference notional known and at or above the minimum.  Only the
debounce gate remains. -/
theorem evalDirection_qualified (cfg : SpreadConfig)
    (lastAlert : DebounceMap DebounceKeyD) (now : ℚ) (token : String)
    (buy_venue sell_venue : Venue) (bq sq : DirectQuote) (a b : ℚ)
    (ha : bq.best_ask = some a) (hb : sq.best_bid = some b) (hpos : 0 < a)
    (hmin : ¬((b - a) / a * 100 - cfg.total_cost_percent buy_venue sell_venue
      < cfg.min_spread_percent))
    (r : ℚ) (href : SpreadEngine.reference_notional bq sq = some r)
    (hr : ¬(r < cfg.min_notional_usdt)) :
    SpreadEngine.evalDirection cfg lastAlert now token buy_venue sell_venue
      (some bq) (some sq) =
      (if SpreadEngine.debounceEmits cfg
          (lastAlert (token, buy_venue, sell_venue)) now
          ((b - a) / a * 100 - cfg.total_cost_percent buy_venue sell_venue)
          = true then
        some { token := token
               buy_venue := buy_venue
               sell_venue := sell_venue
               buy_price := a
               sell_price := b
               gross_spread_percent := (b - a) / a * 100
               net_spread_percent := (b - a) / a * 100
                 - cfg.total_cost_percent buy_venue sell_venue
               reference_notional := r
               updated_at_ms := max bq.timestamp_ms sq.timestamp_ms }
      else none) := by
  rw [evalDirection_unfold cfg lastAlert now token buy_venue sell_venue bq sq
    a b ha hb hpos, if_neg hmin, href]
  exact if_neg hr

/-- C3: for every qualifying direct-spread evaluation (both prices present,
positive ask, net spread at or above the minimum, usable reference notional
at or above the minimum), the alert is emitted exactly when the debounce
entry for `(token, buy, sell)` is absent, or the window has elapsed, or the
candidate net spread strictly exceeds the recorded spread plus the minimum
improvement; and every emission (with the callback returning normally)
refreshes the entry to the current time and net spread. -/
theorem claim_C3_debounce_gate (cfg : SpreadConfig)
    (lastAlert : DebounceMap DebounceKeyD) (now : ℚ) (token : String)
    (buy_venue sell_venue : Venue) (bq sq : DirectQuote) (a b : ℚ)
    (ha : bq.best_ask = some a) (hb : sq.best_bid = some b) (hpos : 0 < a)
    (hmin : ¬((b - a) / a * 100 - cfg.total_cost_percent buy_venue sell_venue
      < cfg.min_spread_percent))
    (r : ℚ) (href : SpreadEngine.reference_notional bq sq = some r)
    (hr : ¬(r < cfg.min_notional_usdt)) :
    ((SpreadEngine.evalDirection cfg lastAlert now token buy_venue sell_venue
        (some bq) (some sq)).isSome = true ↔
      (match lastAlert (token, buy_venue, sell_venue) with
       | none => True
       | some (last_time, last_spread) =>
         cfg.debounce_seconds ≤ now - last_time ∨
           last_spread + cfg.min_improvement_percent <
             (b - a) / a * 100
               - cfg.total_cost_percent buy_venue sell_venue)) ∧
    (∀ alert, SpreadEngine.evalDirection cfg lastAlert now token buy_venue
        sell_venue (some bq) (some sq) = some alert →
      (SpreadEngine.emitStep cfg lastAlert now token buy_venue sell_venue
          (some bq) (some sq) CbOutcome.ok).1 (token, buy_venue, sell_venue)
        = some (now, (b - a) / a * 100
            - cfg.total_cost_percent buy_venue sell_venue)) := by
  have hrw := evalDirection_qualified cfg lastAlert now token buy_venue
    sell_venue bq sq a b ha hb hpos hmin r href hr
  constructor
  · rw [hrw]
    by_cases hd : SpreadEngine.debounceEmits cfg
        (lastAlert (token, buy_venue, sell_venue)) now
        ((b - a) / a * 100 - cfg.total_cost_percent buy_venue sell_venue)
        = true
    · rw [if_pos hd]
      exact iff_of_true rfl ((debounceEmits_eq_true_iff cfg _ now _).mp hd)
    · rw [if_neg hd]
      exact iff_of_false (by simp)
        (fun hc => hd ((debounceEmits_eq_true_iff cfg _ now _).mpr hc))
  · intro alert halert
    have hnet : alert.net_spread_percent =
        (b - a) / a * 100 - cfg.total_cost_percent buy_venue sell_venue := by
      rw [hrw] at halert
      split at halert
      · injection halert with h
        subst h
        rfl
      · exact absurd halert (by simp)
    unfold SpreadEngine.emitStep
    rw [halert]
    simp [debSet, hnet]

/-- Debounce map of the C3 witness: an entry for `("ABC", MEXC, WHALES)` at
time 0 with net spread 4. -/
def c3_last : DebounceMap DebounceKeyD :=
  debSet (fun _ => none) ("ABC", Venue.MEXC, Venue.WHALES) (0, 4)

/-- Total cost of the C2/C3 witness configuration: 35 bps = 0.35%. -/
theorem c2_cost : c2_cfg.total_cost_percent Venue.MEXC Venue.WHALES
    = 35/100 := by
  simp only [SpreadConfig.total_cost_percent, feeGet, c2_cfg, List.find?]
  norm_num [show decide (Venue.MEXC = Venue.WHALES) = false from rfl]

/-- Witness for C3: with an entry `(time 0, spread 4)` and `now = 10` inside
the 30-second window, a candidate net spread of 4.65 strictly exceeds
4 + 0.1, so the evaluation emits and the entry is refreshed to
`(10, 4.65)`. -/
theorem claim_C3_witness :
    (SpreadEngine.evalDirection c2_cfg c3_last 10 "ABC" Venue.MEXC
      Venue.WHALES (some c2_buy_quote) (some c2_sell_quote)).isSome = true ∧
    (SpreadEngine.emitStep c2_cfg c3_last 10 "ABC" Venue.MEXC Venue.WHALES
        (some c2_buy_quote) (some c2_sell_quote) CbOutcome.ok).1
      ("ABC", Venue.MEXC, Venue.WHALES)
      = some (10, ((21/20 : ℚ) - 1) / 1 * 100
          - c2_cfg.total_cost_percent Venue.MEXC Venue.WHALES) := by
  have h := claim_C3_debounce_gate c2_cfg c3_last 10 "ABC" Venue.MEXC
    Venue.WHALES c2_buy_quote c2_sell_quote 1 (21/20) rfl rfl (by norm_num)
    (by rw [c2_cost]; norm_num [c2_cfg]) 150
    (by simp [SpreadEngine.reference_notional, c2_buy_quote, c2_sell_quote]
        norm_num)
    (by norm_num [c2_cfg])
  have hcond : (match c3_last ("ABC", Venue.MEXC, Venue.WHALES) with
      | none => True
      | some (last_time, last_spread) =>
        c2_cfg.debounce_seconds ≤ 10 - last_time ∨
          last_spread + c2_cfg.min_improvement_percent <
            ((21/20 : ℚ) - 1) / 1 * 100
              - c2_cfg.total_cost_percent Venue.MEXC Venue.WHALES) := by
    have hl : c3_last ("ABC", Venue.MEXC, Venue.WHALES) = some (0, 4) := by
      simp [c3_last, debSet]
    rw [hl, c2_cost]
    norm_num [c2_cfg]
  have hsome := h.1.mpr hcond
  obtain ⟨al, hal⟩ := Option.isSome_iff_exists.mp hsome
  exact ⟨hsome, h.2 al hal⟩

/- ===== C4: hedged vs direct debounce decisions ===== -/

/-- Direct-engine configuration for the C4 scenario. -/
def c4_cfg_direct : SpreadConfig :=
  { min_spread_percent := 0, min_notional_usdt := 0,
    min_improvement_percent := 1/5, debounce_seconds := 60,
    slippage_bps := 0, fee_bps := [] }

/-- Hedged-engine configuration for the C4 scenario, with the same debounce
window and minimum improvement as `c4_cfg_direct`. -/
def c4_cfg_hedged : HedgedSpreadConfig :=
  { min_spread_percent := 0, min_notional_usdt := 0,
    min_improvement_percent := 1/5, debounce_seconds := 60,
    slippage_bps := 0, fee_bps := [] }

/-- Direct debounce map of the C4 scenario: entry `(time 0, spread 1)`. -/
def c4_last_direct : DebounceMap DebounceKeyD :=
  debSet (fun _ => none) ("T", Venue.MEXC, Venue.WHALES) (0, 1)

/-- Hedged debounce key of the C4 scenario. -/
def c4_key : DebounceKeyH :=
  ("T", Venue.MEXC, Venue.WHALES, HedgeDirection.order_buy_perp_sell)

/-- Hedged debounce map of the C4 scenario: entry `(time 0, spread 1)`. -/
def c4_last_hedged : DebounceMap DebounceKeyH :=
  debSet (fun _ => none) c4_key (0, 1)

/-- C4 counterexample.  With identical debounce parameters (window 60,
minimum improvement 0.2), an entry `(time 0, spread 1)` and `now = 10`
(inside the window), a candidate net spread of exactly
`1 + 0.2 = 1.2` makes the two engines disagree: the direct engine's inline
gate suppresses (its comparison `net <= last + min_improvement` is
inclusive, so emission requires a strict excess; here the full evaluation
returns no alert even though every other gate passes), while the hedged
engine's `_should_emit` returns `True` (its comparison
`improvement >= min_improvement` is inclusive in the other direction). -/
theorem claim_C4_counterexample :
    SpreadEngine.evalDirection c4_cfg_direct c4_last_direct 10 "T" Venue.MEXC
      Venue.WHALES
      (some { best_ask := some 1, notional := some 100, timestamp_ms := 1 })
      (some { best_bid := some (253/250), notional := some 100,
              timestamp_ms := 2 }) = none ∧
    HedgedSpreadEngine.should_emit c4_cfg_hedged c4_last_hedged c4_key 10
      (6/5) = true ∧
    ((253/250 : ℚ) - 1) / 1 * 100
      - c4_cfg_direct.total_cost_percent Venue.MEXC Venue.WHALES = 6/5 ∧
    (6/5 : ℚ) = 1 + c4_cfg_direct.min_improvement_percent ∧
    c4_cfg_hedged.debounce_seconds = c4_cfg_direct.debounce_seconds ∧
    c4_cfg_hedged.min_improvement_percent
      = c4_cfg_direct.min_improvement_percent := by
  refine ⟨?_, ?_, ?_, ?_, rfl, rfl⟩
  · simp only [SpreadEngine.evalDirection, SpreadEngine.reference_notional,
      SpreadEngine.debounceEmits, SpreadConfig.total_cost_percent, feeGet,
      c4_cfg_direct, c4_last_direct, debSet, List.find?, List.filterMap]
    norm_num
  · simp only [HedgedSpreadEngine.should_emit, c4_cfg_hedged, c4_last_hedged,
      debSet, c4_key]
    norm_num
  · simp only [SpreadConfig.total_cost_percent, feeGet, c4_cfg_direct,
      List.find?]
    norm_num
  · simp only [c4_cfg_direct]
    norm_num

/-- C4 (amended): under identical debounce parameters, the hedged engine's
should-emit predicate and the direct engine's inline gate agree on every
debounce state, current time, and candidate net spread, *except* exactly
when an entry is present, the current time is inside the debounce window,
and the candidate net spread equals the recorded spread plus the minimum
improvement: at that within-window boundary the hedged engine emits
(inclusive `>=` on the improvement) while the direct engine suppresses
(emission requires a strict excess).  In particular the gates agree at the
boundary spread once the window has elapsed (both emit), and on every
non-boundary state. -/
theorem claim_C4_amended_debounce_equivalence (cfgH : HedgedSpreadConfig)
    (cfgD : SpreadConfig)
    (hdeb : cfgH.debounce_seconds = cfgD.debounce_seconds)
    (himp : cfgH.min_improvement_percent = cfgD.min_improvement_percent)
    (la : DebounceMap DebounceKeyH) (key : DebounceKeyH) (now spread : ℚ) :
    ((∀ last_time last_spread, la key = some (last_time, last_spread) →
        now - last_time < cfgD.debounce_seconds →
        spread ≠ last_spread + cfgD.min_improvement_percent) →
      HedgedSpreadEngine.should_emit cfgH la key now spread =
        SpreadEngine.debounceEmits cfgD (la key) now spread) ∧
    (∀ last_time last_spread, la key = some (last_time, last_spread) →
      now - last_time < cfgD.debounce_seconds →
      spread = last_spread + cfgD.min_improvement_percent →
      HedgedSpreadEngine.should_emit cfgH la key now spread = true ∧
      SpreadEngine.debounceEmits cfgD (la key) now spread = false) := by
  constructor
  · intro hne
    unfold HedgedSpreadEngine.should_emit SpreadEngine.debounceEmits
    rcases hkey : la key with _ | ⟨last_time, last_spread⟩
    · rfl
    · simp only [hdeb, himp]
      by_cases hw : now - last_time < cfgD.debounce_seconds
      · rw [if_pos hw]
        by_cases hle : spread ≤ last_spread + cfgD.min_improvement_percent
        · rw [if_pos ⟨hw, hle⟩]
          have hlt : spread < last_spread + cfgD.min_improvement_percent :=
            lt_of_le_of_ne hle (hne last_time last_spread hkey hw)
          simp only [decide_eq_false_iff_not, ge_iff_le, not_le]
          linarith
        · rw [if_neg (fun h => hle h.2)]
          simp only [decide_eq_true_eq, ge_iff_le]
          push_neg at hle
          linarith
      · rw [if_neg hw, if_neg (fun h => hw h.1)]
  · intro last_time last_spread hkey hw heq
    unfold HedgedSpreadEngine.should_emit SpreadEngine.debounceEmits
    simp only [hkey, hdeb, himp]
    constructor
    · rw [if_pos hw]
      simp only [decide_eq_true_eq, ge_iff_le]
      linarith [le_of_eq heq]
    · rw [if_pos ⟨hw, le_of_eq heq⟩]

/-- Witness for C4 (amended): away from the boundary (candidate spread 2,
recorded spread 1, minimum improvement 0.2) the two gates agree inside the
window; at the boundary (candidate spread 1.2) inside the window the hedged
gate emits and the direct gate suppresses; and at the boundary with the
window elapsed (`now = 100`, window 60) the two gates agree again. -/
theorem claim_C4_witness :
    HedgedSpreadEngine.should_emit c4_cfg_hedged c4_last_hedged c4_key 10 2 =
      SpreadEngine.debounceEmits c4_cfg_direct (c4_last_hedged c4_key) 10 2 ∧
    HedgedSpreadEngine.should_emit c4_cfg_hedged c4_last_hedged c4_key 10
      (6/5) = true ∧
    SpreadEngine.debounceEmits c4_cfg_direct (c4_last_hedged c4_key) 10
      (6/5) = false ∧
    HedgedSpreadEngine.should_emit c4_cfg_hedged c4_last_hedged c4_key 100
      (6/5) =
      SpreadEngine.debounceEmits c4_cfg_direct (c4_last_hedged c4_key) 100
        (6/5) := by
  have hkey : c4_last_hedged c4_key = some (0, 1) := by
    simp [c4_last_hedged, debSet]
  have h1 := (claim_C4_amended_debounce_equivalence c4_cfg_hedged
    c4_cfg_direct rfl rfl c4_last_hedged c4_key 10 2).1
    (by
      intro last_time last_spread h hw
      rw [hkey] at h
      injection h with h2
      cases h2
      norm_num [c4_cfg_direct])
  have h2 := (claim_C4_amended_debounce_equivalence c4_cfg_hedged
    c4_cfg_direct rfl rfl c4_last_hedged c4_key 10 (6/5)).2 0 1 hkey
    (by norm_num [c4_cfg_direct]) (by norm_num [c4_cfg_direct])
  have h3 := (claim_C4_amended_debounce_equivalence c4_cfg_hedged
    c4_cfg_direct rfl rfl c4_last_hedged c4_key 100 (6/5)).1
    (by
      intro last_time last_spread h hw
      rw [hkey] at h
      injection h with h2
      cases h2
      norm_num [c4_cfg_direct] at hw)
  exact ⟨h1, h2.1, h2.2, h3⟩

/- ===== C1: sticky partial update ===== -/

/-- Observation of the direct engine's cached quote at a key, defaulting to a
fresh `_Quote()` when no entry exists yet (matching
`venue_quotes.setdefault(venue, _Quote())`). -/
def SpreadEngine.quoteSeen (cache : DirectCache) (t : String) (v : Venue) :
    DirectQuote :=
  (cache t v).getD {}

/-- Observation of the hedged engine's cached quote at a key, defaulting to a
fresh `_Quote()` when no entry exists yet. -/
def HedgedSpreadEngine.quoteSeen (cache : HedgedCache) (t : String)
    (v : Venue) : HedgedQuote :=
  (cache t v).getD {}

/-- A hedged cache holding one quote with `bid_size = 3`, for the C1
counterexample. -/
def c1_cache : HedgedCache :=
  fun t v => if t = "T" ∧ v = Venue.MEXC then
    some { bid_size := some 3 } else none

/-- A book event whose `bid_size` is absent but whose legacy `size` field
carries 5, for the C1 counterexample. -/
def c1_event : MarketEvent :=
  { token := "T", venue := Venue.MEXC, instrument := "T",
    event_type := EventType.book, size := some 5, timestamp_ms := 7 }

/-- C1 counterexample.  The claim says that for every book event and every
quote field, an absent (`None`) event value leaves the cached field
unchanged.  In the hedged engine this fails for `bid_size`: the `elif` at
line 134 of `src/rules/hedged.py` overwrites `bid_size` from the event's
legacy `size` field even though the event's `bid_size` is `None` — here the
cached value 3 becomes 5. -/
theorem claim_C1_counterexample :
    c1_event.event_type = EventType.book ∧
    c1_event.bid_size = none ∧
    (HedgedSpreadEngine.quoteSeen c1_cache "T" Venue.MEXC).bid_size
      = some 3 ∧
    (HedgedSpreadEngine.quoteSeen
        (HedgedSpreadEngine.handleEvent c1_cache c1_event) "T"
        Venue.MEXC).bid_size = some 5 ∧
    some (5 : ℚ) ≠ some (3 : ℚ) := by
  refine ⟨rfl, rfl, ?_, ?_, by simp⟩
  · simp [HedgedSpreadEngine.quoteSeen, c1_cache]
  · simp [HedgedSpreadEngine.quoteSeen, HedgedSpreadEngine.handleEvent,
      c1_cache, c1_event, HedgedQuote.applyBook]

/-- C1 (amended): for every book event applied to a quote cache, a field is
overwritten only when the event carries a non-absent value for it: an absent
event field leaves the cached field unchanged — for every field of the
direct engine's quote (best bid, best ask, notional) and of the hedged
engine's quote (best bid, best ask, bid size, ask size, general notional) —
except that the hedged engine's bid size is preserved only when the event's
`bid_size` *and* its legacy `size` are both absent: a non-absent legacy
`size` overwrites the cached bid size even when `bid_size` is absent. -/
theorem claim_C1_amended_sticky_update (cache_d : DirectCache)
    (cache_h : HedgedCache) (e : MarketEvent)
    (hbook : e.event_type = EventType.book) :
    (e.best_bid = none →
      (SpreadEngine.quoteSeen (SpreadEngine.handleEvent cache_d e) e.token
        e.venue).best_bid
        = (SpreadEngine.quoteSeen cache_d e.token e.venue).best_bid) ∧
    (e.best_ask = none →
      (SpreadEngine.quoteSeen (SpreadEngine.handleEvent cache_d e) e.token
        e.venue).best_ask
        = (SpreadEngine.quoteSeen cache_d e.token e.venue).best_ask) ∧
    (e.notional = none →
      (SpreadEngine.quoteSeen (SpreadEngine.handleEvent cache_d e) e.token
        e.venue).notional
        = (SpreadEngine.quoteSeen cache_d e.token e.venue).notional) ∧
    (e.best_bid = none →
      (HedgedSpreadEngine.quoteSeen (HedgedSpreadEngine.handleEvent cache_h e)
        e.token e.venue).best_bid
        = (HedgedSpreadEngine.quoteSeen cache_h e.token e.venue).best_bid) ∧
    (e.best_ask = none →
      (HedgedSpreadEngine.quoteSeen (HedgedSpreadEngine.handleEvent cache_h e)
        e.token e.venue).best_ask
        = (HedgedSpreadEngine.quoteSeen cache_h e.token e.venue).best_ask) ∧
    (e.bid_size = none → e.size = none →
      (HedgedSpreadEngine.quoteSeen (HedgedSpreadEngine.handleEvent cache_h e)
        e.token e.venue).bid_size
        = (HedgedSpreadEngine.quoteSeen cache_h e.token e.venue).bid_size) ∧
    (e.ask_size = none →
      (HedgedSpreadEngine.quoteSeen (HedgedSpreadEngine.handleEvent cache_h e)
        e.token e.venue).ask_size
        = (HedgedSpreadEngine.quoteSeen cache_h e.token e.venue).ask_size) ∧
    (e.notional = none →
      (HedgedSpreadEngine.quoteSeen (HedgedSpreadEngine.handleEvent cache_h e)
        e.token e.venue).general_notional
        = (HedgedSpreadEngine.quoteSeen cache_h e.token
            e.venue).general_notional) := by
  have hafter_h : HedgedSpreadEngine.quoteSeen
      (HedgedSpreadEngine.handleEvent cache_h e) e.token e.venue
      = (HedgedSpreadEngine.quoteSeen cache_h e.token e.venue).applyBook e := by
    unfold HedgedSpreadEngine.handleEvent HedgedSpreadEngine.quoteSeen
    rw [if_neg (by simp [hbook])]
    simp
  have h4 : e.best_bid = none →
      (HedgedSpreadEngine.quoteSeen (HedgedSpreadEngine.handleEvent cache_h e)
        e.token e.venue).best_bid
        = (HedgedSpreadEngine.quoteSeen cache_h e.token e.venue).best_bid :=
    fun h1 => by rw [hafter_h]; simp [HedgedQuote.applyBook, h1]
  have h5 : e.best_ask = none →
      (HedgedSpreadEngine.quoteSeen (HedgedSpreadEngine.handleEvent cache_h e)
        e.token e.venue).best_ask
        = (HedgedSpreadEngine.quoteSeen cache_h e.token e.venue).best_ask :=
    fun h1 => by rw [hafter_h]; simp [HedgedQuote.applyBook, h1]
  have h6 : e.bid_size = none → e.size = none →
      (HedgedSpreadEngine.quoteSeen (HedgedSpreadEngine.handleEvent cache_h e)
        e.token e.venue).bid_size
        = (HedgedSpreadEngine.quoteSeen cache_h e.token e.venue).bid_size :=
    fun h1 h2 => by rw [hafter_h]; simp [HedgedQuote.applyBook, h1, h2]
  have h7 : e.ask_size = none →
      (HedgedSpreadEngine.quoteSeen (HedgedSpreadEngine.handleEvent cache_h e)
        e.token e.venue).ask_size
        = (HedgedSpreadEngine.quoteSeen cache_h e.token e.venue).ask_size :=
    fun h1 => by rw [hafter_h]; simp [HedgedQuote.applyBook, h1]
  have h8 : e.notional = none →
      (HedgedSpreadEngine.quoteSeen (HedgedSpreadEngine.handleEvent cache_h e)
        e.token e.venue).general_notional
        = (HedgedSpreadEngine.quoteSeen cache_h e.token
            e.venue).general_notional :=
    fun h1 => by rw [hafter_h]; simp [HedgedQuote.applyBook, h1]
  by_cases hskip : e.best_bid = none ∧ e.best_ask = none
  · have hid : SpreadEngine.handleEvent cache_d e = cache_d := by
      unfold SpreadEngine.handleEvent
      rw [if_neg (by simp [hbook]), if_pos hskip]
    exact ⟨fun _ => by rw [hid], fun _ => by rw [hid], fun _ => by rw [hid],
      h4, h5, h6, h7, h8⟩
  · have hafter_d : SpreadEngine.quoteSeen
        (SpreadEngine.handleEvent cache_d e) e.token e.venue
        = (SpreadEngine.quoteSeen cache_d e.token e.venue).applyBook e := by
      unfold SpreadEngine.handleEvent SpreadEngine.quoteSeen
      rw [if_neg (by simp [hbook]), if_neg hskip]
      simp
    exact ⟨fun h1 => by rw [hafter_d]; simp [DirectQuote.applyBook, h1],
      fun h1 => by rw [hafter_d]; simp [DirectQuote.applyBook, h1],
      fun h1 => by rw [hafter_d]; simp [DirectQuote.applyBook, h1],
      h4, h5, h6, h7, h8⟩

/-- Direct cache of the C1 witness: one fully-populated quote. -/
def c1w_cache_d : DirectCache :=
  fun t v => if t = "T" ∧ v = Venue.MEXC then
    some { best_bid := some 1, best_ask := some 2, notional := some 3,
           timestamp_ms := 4 } else none

/-- Hedged cache of the C1 witness: one fully-populated quote. -/
def c1w_cache_h : HedgedCache :=
  fun t v => if t = "T" ∧ v = Venue.MEXC then
    some { best_bid := some 1, best_ask := some 2, bid_size := some 3,
           ask_size := some 4, general_notional := some 5,
           timestamp_ms := 6 } else none

/-- Book event of the C1 witness: only the best bid is present. -/
def c1w_event : MarketEvent :=
  { token := "T", venue := Venue.MEXC, instrument := "T",
    event_type := EventType.book, best_bid := some 9, timestamp_ms := 10 }

/-- Witness for C1 (amended): applying a book event that carries only a best
bid leaves the direct quote's ask and notional, and the hedged quote's ask,
bid size, ask size and general notional, at their previously observed
values. -/
theorem claim_C1_witness :
    (SpreadEngine.quoteSeen (SpreadEngine.handleEvent c1w_cache_d c1w_event)
      c1w_event.token c1w_event.venue).best_ask
      = (SpreadEngine.quoteSeen c1w_cache_d c1w_event.token
          c1w_event.venue).best_ask ∧
    (SpreadEngine.quoteSeen (SpreadEngine.handleEvent c1w_cache_d c1w_event)
      c1w_event.token c1w_event.venue).notional
      = (SpreadEngine.quoteSeen c1w_cache_d c1w_event.token
          c1w_event.venue).notional ∧
    (HedgedSpreadEngine.quoteSeen
      (HedgedSpreadEngine.handleEvent c1w_cache_h c1w_event)
      c1w_event.token c1w_event.venue).bid_size
      = (HedgedSpreadEngine.quoteSeen c1w_cache_h c1w_event.token
          c1w_event.venue).bid_size ∧
    (HedgedSpreadEngine.quoteSeen
      (HedgedSpreadEngine.handleEvent c1w_cache_h c1w_event)
      c1w_event.token c1w_event.venue).general_notional
      = (HedgedSpreadEngine.quoteSeen c1w_cache_h c1w_event.token
          c1w_event.venue).general_notional ∧
    (SpreadEngine.quoteSeen c1w_cache_d c1w_event.token
      c1w_event.venue).best_ask = some 2 := by
  have h := claim_C1_amended_sticky_update c1w_cache_d c1w_cache_h c1w_event
    rfl
  exact ⟨h.2.1 rfl, h.2.2.1 rfl, h.2.2.2.2.2.1 rfl rfl, h.2.2.2.2.2.2.2 rfl,
    by simp [SpreadEngine.quoteSeen, c1w_cache_d, c1w_event]⟩

/- ===== C7: book-update application ===== -/

/-- Book event with both best bid and best ask absent (it still carries a
notional and a timestamp), for the C7 counterexample. -/
def c7_event : MarketEvent :=
  { token := "T", venue := Venue.MEXC, instrument := "T",
    event_type := EventType.book, notional := some 7, timestamp_ms := 99 }

/-- C7 counterexample.  The claim says every book update — including one
whose best bid and best ask are both absent — causes the engine to look up
or create the quote and record the event's timestamp.  The direct engine
returns early on such an event (lines 129-130 of `src/rules/spread.py`):
starting from an empty cache, no quote is created at all, so neither the
notional nor the timestamp 99 is recorded. -/
theorem claim_C7_counterexample :
    c7_event.event_type = EventType.book ∧
    c7_event.best_bid = none ∧ c7_event.best_ask = none ∧
    c7_event.notional = some 7 ∧ c7_event.timestamp_ms = 99 ∧
    SpreadEngine.handleEvent (fun _ _ => none) c7_event "T" Venue.MEXC
      = none := by
  refine ⟨rfl, rfl, rfl, rfl, rfl, ?_⟩
  simp [SpreadEngine.handleEvent, c7_event]

/-- C7 (amended): on a book update for `(token, venue)` the hedged engine
always looks up or lazily creates the quote, applies the sticky per-field
overwrite, and records the event's timestamp as the quote's timestamp (the
newest-seen value wins — no monotonicity check), leaving all other keys
untouched; the direct engine does the same, but only when the event carries
at least one of best bid / best ask — a book update with both absent is
ignored entirely by the direct engine (no quote creation, no timestamp
recording). -/
theorem claim_C7_amended_book_update (cache_d : DirectCache)
    (cache_h : HedgedCache) (e : MarketEvent)
    (hbook : e.event_type = EventType.book) :
    ((HedgedSpreadEngine.handleEvent cache_h e) e.token e.venue
      = some ((HedgedSpreadEngine.quoteSeen cache_h e.token
          e.venue).applyBook e)) ∧
    ((HedgedSpreadEngine.quoteSeen cache_h e.token e.venue).applyBook
        e).timestamp_ms = e.timestamp_ms ∧
    (∀ t v, ¬(t = e.token ∧ v = e.venue) →
      (HedgedSpreadEngine.handleEvent cache_h e) t v = cache_h t v) ∧
    (¬(e.best_bid = none ∧ e.best_ask = none) →
      ((SpreadEngine.handleEvent cache_d e) e.token e.venue
        = some ((SpreadEngine.quoteSeen cache_d e.token
            e.venue).applyBook e)) ∧
      ((SpreadEngine.quoteSeen cache_d e.token e.venue).applyBook
          e).timestamp_ms = e.timestamp_ms ∧
      (∀ t v, ¬(t = e.token ∧ v = e.venue) →
        (SpreadEngine.handleEvent cache_d e) t v = cache_d t v)) ∧
    (e.best_bid = none → e.best_ask = none →
      SpreadEngine.handleEvent cache_d e = cache_d) := by
  have hh : HedgedSpreadEngine.handleEvent cache_h e
      = fun t v => if t = e.token ∧ v = e.venue then
          some (((cache_h e.token e.venue).getD {}).applyBook e)
        else cache_h t v := by
    unfold HedgedSpreadEngine.handleEvent
    rw [if_neg (by simp [hbook])]
  refine ⟨?_, rfl, ?_, ?_, ?_⟩
  · rw [hh]
    simp [HedgedSpreadEngine.quoteSeen]
  · intro t v hne
    rw [hh]
    simp only [if_neg hne]
  · intro hpresent
    have hd : SpreadEngine.handleEvent cache_d e
        = fun t v => if t = e.token ∧ v = e.venue then
            some (((cache_d e.token e.venue).getD {}).applyBook e)
          else cache_d t v := by
      unfold SpreadEngine.handleEvent
      rw [if_neg (by simp [hbook]), if_neg hpresent]
    refine ⟨?_, rfl, ?_⟩
    · rw [hd]
      simp [SpreadEngine.quoteSeen]
    · intro t v hne
      rw [hd]
      simp only [if_neg hne]
  · intro h1 h2
    unfold SpreadEngine.handleEvent
    rw [if_neg (by simp [hbook]), if_pos ⟨h1, h2⟩]

/-- Witness for C7 (amended): the event carrying only a best bid creates the
quote and stamps it with the event's timestamp on both engines, and an
unrelated key is untouched; the both-absent event `c7_event` leaves the
direct cache exactly as it was. -/
theorem claim_C7_witness :
    ((HedgedSpreadEngine.handleEvent c1w_cache_h c1w_event) c1w_event.token
      c1w_event.venue
      = some ((HedgedSpreadEngine.quoteSeen c1w_cache_h c1w_event.token
          c1w_event.venue).applyBook c1w_event)) ∧
    ((HedgedSpreadEngine.quoteSeen c1w_cache_h c1w_event.token
        c1w_event.venue).applyBook c1w_event).timestamp_ms
      = c1w_event.timestamp_ms ∧
    ((SpreadEngine.handleEvent c1w_cache_d c1w_event) c1w_event.token
      c1w_event.venue
      = some ((SpreadEngine.quoteSeen c1w_cache_d c1w_event.token
          c1w_event.venue).applyBook c1w_event)) ∧
    ((HedgedSpreadEngine.handleEvent c1w_cache_h c1w_event) "U" Venue.BYBIT
      = c1w_cache_h "U" Venue.BYBIT) ∧
    SpreadEngine.handleEvent c1w_cache_d c7_event = c1w_cache_d := by
  have h := claim_C7_amended_book_update c1w_cache_d c1w_cache_h c1w_event rfl
  have h2 := claim_C7_amended_book_update c1w_cache_d c1w_cache_h c7_event rfl
  refine ⟨h.1, h.2.1, (h.2.2.2.1 ?_).1, h.2.2.1 "U" Venue.BYBIT ?_,
    h2.2.2.2.2 rfl rfl⟩
  · simp [c1w_event]
  · simp [c1w_event]

/- ===== C10: debounce entry written only after the callback returns ===== -/

/-- C10: in both engines the debounce map is written only after the
alert-sink callback returns normally.  If the callback raises, the debounce
map produced by the evaluation is exactly the input map (first three
conjuncts, one per emission site: `SpreadEngine._evaluate_spreads`,
`HedgedSpreadEngine._check_order_buy_perp_sell`,
`HedgedSpreadEngine._check_perp_buy_order_sell`); and for any callback
outcome, the map is unchanged unless the callback returned normally (last
three conjuncts). -/
theorem claim_C10_debounce_write_atomicity (cfg : SpreadConfig)
    (hcfg : HedgedSpreadConfig) (la : DebounceMap DebounceKeyD)
    (hla : DebounceMap DebounceKeyH) (now : ℚ) (token : String)
    (buy_venue sell_venue : Venue) (bq? sq? : Option DirectQuote)
    (pair : HedgedPair) (oq pq : HedgedQuote) (cb : CbOutcome) :
    (SpreadEngine.emitStep cfg la now token buy_venue sell_venue bq? sq?
      CbOutcome.raises).1 = la ∧
    (HedgedSpreadEngine.check_order_buy_perp_sell hcfg hla token pair oq pq
      now CbOutcome.raises).1 = hla ∧
    (HedgedSpreadEngine.check_perp_buy_order_sell hcfg hla token pair oq pq
      now CbOutcome.raises).1 = hla ∧
    ((SpreadEngine.emitStep cfg la now token buy_venue sell_venue bq? sq?
      cb).1 = la ∨ cb = CbOutcome.ok) ∧
    ((HedgedSpreadEngine.check_order_buy_perp_sell hcfg hla token pair oq pq
      now cb).1 = hla ∨ cb = CbOutcome.ok) ∧
    ((HedgedSpreadEngine.check_perp_buy_order_sell hcfg hla token pair oq pq
      now cb).1 = hla ∨ cb = CbOutcome.ok) := by
  have h1 : (SpreadEngine.emitStep cfg la now token buy_venue sell_venue bq?
      sq? CbOutcome.raises).1 = la := by
    unfold SpreadEngine.emitStep
    split <;> rfl
  have h2 : (HedgedSpreadEngine.check_order_buy_perp_sell hcfg hla token pair
      oq pq now CbOutcome.raises).1 = hla := by
    unfold HedgedSpreadEngine.check_order_buy_perp_sell
    dsimp only
    repeat' split
    all_goals rfl
  have h3 : (HedgedSpreadEngine.check_perp_buy_order_sell hcfg hla token pair
      oq pq now CbOutcome.raises).1 = hla := by
    unfold HedgedSpreadEngine.check_perp_buy_order_sell
    dsimp only
    repeat' split
    all_goals rfl
  refine ⟨h1, h2, h3, ?_, ?_, ?_⟩
  · cases cb with
    | ok => exact Or.inr rfl
    | raises => exact Or.inl h1
  · cases cb with
    | ok => exact Or.inr rfl
    | raises => exact Or.inl h2
  · cases cb with
    | ok => exact Or.inr rfl
    | raises => exact Or.inl h3

/- ===== C8: event-bus fan-out ===== -/

/-- `publish` never changes the subscriber set. -/
theorem publish_subscribers {α : Type} (s : BusState α) (item : α) :
    (EventBus.publish s item).subscribers = s.subscribers := by
  unfold EventBus.publish
  split <;> rfl

/-- A registered queue receives exactly one copy of a published item,
appended in FIFO order. -/
theorem publish_queues_mem {α : Type} (s : BusState α) (item : α) (q : ℕ)
    (hq : q ∈ s.subscribers) :
    (EventBus.publish s item).queues q = s.queues q ++ [item] := by
  unfold EventBus.publish
  rw [if_neg (by simp [List.isEmpty_iff]; exact List.ne_nil_of_mem hq)]
  simp [hq]

/-- A queue that is not registered receives nothing from a publish. -/
theorem publish_queues_not_mem {α : Type} (s : BusState α) (item : α) (q : ℕ)
    (hq : q ∉ s.subscribers) :
    (EventBus.publish s item).queues q = s.queues q := by
  unfold EventBus.publish
  split
  · rfl
  · simp [hq]

/-- A queue registered throughout a sequence of publishes receives exactly
those items, in publish order. -/
theorem publishAll_queues_mem {α : Type} (items : List α) (s : BusState α)
    (q : ℕ) (hq : q ∈ s.subscribers) :
    (EventBus.publishAll s items).queues q = s.queues q ++ items := by
  induction items generalizing s with
  | nil => simp [EventBus.publishAll]
  | cons x xs ih =>
    unfold EventBus.publishAll at ih ⊢
    simp only [List.foldl_cons]
    rw [ih (EventBus.publish s x)
      (by rw [publish_subscribers]; exact hq),
      publish_queues_mem s x q hq, List.append_assoc]
    rfl

/-- A queue that is not registered receives nothing from any number of
publishes. -/
theorem publishAll_queues_not_mem {α : Type} (items : List α)
    (s : BusState α) (q : ℕ) (hq : q ∉ s.subscribers) :
    (EventBus.publishAll s items).queues q = s.queues q := by
  induction items generalizing s with
  | nil => simp [EventBus.publishAll]
  | cons x xs ih =>
    unfold EventBus.publishAll at ih ⊢
    simp only [List.foldl_cons]
    rw [ih (EventBus.publish s x)
      (by rw [publish_subscribers]; exact hq),
      publish_queues_not_mem s x q hq]

/-- `unsubscribe` removes the queue from the subscriber set. -/
theorem unsubscribe_not_mem {α : Type} (s : BusState α) (q : ℕ) :
    q ∉ (EventBus.unsubscribe s q).subscribers := by
  unfold EventBus.unsubscribe
  simp [List.mem_filter]

/-- C8: publishing one item delivers exactly one copy to every registered
queue (appended last); a non-registered queue receives nothing; a queue
registered throughout a sequence of publishes observes exactly those items
in publish order; a queue unsubscribed before the publishes receives zero
copies from all of them; publishing with zero subscribers is a no-op. -/
theorem claim_C8_bus_fanout {α : Type} (s : BusState α) (item : α)
    (items : List α) (q : ℕ) :
    (q ∈ s.subscribers →
      (EventBus.publish s item).queues q = s.queues q ++ [item]) ∧
    (q ∉ s.subscribers →
      (EventBus.publish s item).queues q = s.queues q) ∧
    (q ∈ s.subscribers →
      (EventBus.publishAll s items).queues q = s.queues q ++ items) ∧
    (EventBus.publishAll (EventBus.unsubscribe s q) items).queues q
      = s.queues q ∧
    (s.subscribers = [] → EventBus.publish s item = s) := by
  refine ⟨publish_queues_mem s item q, publish_queues_not_mem s item q,
    publishAll_queues_mem items s q, ?_, ?_⟩
  · rw [publishAll_queues_not_mem items _ q (unsubscribe_not_mem s q)]
    rfl
  · intro h
    unfold EventBus.publish
    rw [if_pos (by simp [h])]

/-- A concrete bus state with two registered queues, both empty. -/
def bus0 : BusState ℕ :=
  { subscribers := [0, 1], queues := fun _ => [], next_id := 2 }

/-- A concrete bus state with no subscribers. -/
def busEmpty : BusState ℕ :=
  { subscribers := [], queues := fun _ => [], next_id := 0 }

/-- Witness for C8: publishing 5 to a bus with queues 0 and 1 puts one copy
of 5 in queue 0; publishing 5 then 6 leaves queue 1 holding `[5, 6]` in
publish order; after unsubscribing queue 0 those publishes deliver nothing
to it; publishing to a bus with no subscribers is a no-op. -/
theorem claim_C8_witness :
    (EventBus.publish bus0 5).queues 0 = [5] ∧
    (EventBus.publishAll bus0 [5, 6]).queues 1 = [5, 6] ∧
    (EventBus.publishAll (EventBus.unsubscribe bus0 0) [5, 6]).queues 0
      = [] ∧
    EventBus.publish busEmpty 5 = busEmpty := by
  refine ⟨?_, ?_, ?_, ?_⟩
  · rw [(claim_C8_bus_fanout bus0 5 [5, 6] 0).1 (by simp [bus0])]
    rfl
  · rw [(claim_C8_bus_fanout bus0 5 [5, 6] 1).2.2.1 (by simp [bus0])]
    rfl
  · exact (claim_C8_bus_fanout bus0 5 [5, 6] 0).2.2.2.1
  · exact (claim_C8_bus_fanout busEmpty 5 [] 0).2.2.2.2 rfl

/- ===== C9: backoff supervisor ===== -/

/-- Picks out the attempt indices of a trace, in order. -/
def attemptsOf (t : List SupEvent) : List ℕ :=
  t.filterMap (fun e => match e with
    | SupEvent.attempt n _ => some n
    | _ => none)

/-- Every delay from the second sleep onwards is capped at the configured
maximum. -/
theorem delaySeq_le_maximum (cfg : BackoffConfig) (n : ℕ) (h : 1 ≤ n) :
    cfg.delaySeq n ≤ cfg.maximum := by
  cases n with
  | zero => exact absurd h (by norm_num)
  | succ m => exact min_le_right _ _

/-- If the stop flag is never observed set, the supervisor attempts at every
iteration: the attempt indices of the `fuel`-step trace starting at
iteration `n` are `n, n+1, …`. -/
theorem attemptsOf_no_stop (cfg : BackoffConfig) (errors stopObs : ℕ → Bool)
    (hstop : ∀ k, stopObs k = false) :
    ∀ fuel n d, attemptsOf
      (IngestClient.runWithRetries cfg errors stopObs fuel d n)
      = List.range' n fuel := by
  intro fuel
  induction fuel with
  | zero =>
    intro n d
    simp [IngestClient.runWithRetries, attemptsOf]
  | succ m ih =>
    intro n d
    unfold IngestClient.runWithRetries
    simp only [hstop, Bool.false_eq_true, if_false]
    simp only [attemptsOf, List.filterMap_cons] at ih ⊢
    rw [ih (n + 1)]
    rw [List.range'_succ n m 1]

/-- If the stop flag is never observed set and the current delay is the
`k`-th element of the backoff sequence, the sleeps of the trace are the
backoff sequence from `k` on. -/
theorem sleepsOf_no_stop (cfg : BackoffConfig) (errors stopObs : ℕ → Bool)
    (hstop : ∀ k, stopObs k = false) :
    ∀ fuel k n, sleepsOf
      (IngestClient.runWithRetries cfg errors stopObs fuel (cfg.delaySeq k) n)
      = (List.range' k fuel).map cfg.delaySeq := by
  intro fuel
  induction fuel with
  | zero =>
    intro k n
    simp [IngestClient.runWithRetries, sleepsOf]
  | succ m ih =>
    intro k n
    unfold IngestClient.runWithRetries
    simp only [hstop, Bool.false_eq_true, if_false]
    simp only [sleepsOf, List.filterMap_cons] at ih ⊢
    rw [show min (cfg.delaySeq k * cfg.multiplier) cfg.maximum
      = cfg.delaySeq (k + 1) from rfl, ih (k + 1) (n + 1)]
    rw [List.range'_succ k m 1, List.map_cons]

/-- The sleep delays of the supervisor trace do not depend on whether the
`run_once` attempts error or succeed: the delay is never reset after a
successful attempt. -/
theorem sleepsOf_outcome_independent (cfg : BackoffConfig)
    (errors1 errors2 stopObs : ℕ → Bool) :
    ∀ fuel d n, sleepsOf
        (IngestClient.runWithRetries cfg errors1 stopObs fuel d n)
      = sleepsOf (IngestClient.runWithRetries cfg errors2 stopObs fuel d n) := by
  intro fuel
  induction fuel with
  | zero => intro d n; rfl
  | succ m ih =>
    intro d n
    unfold IngestClient.runWithRetries
    by_cases h1 : stopObs (2 * n) = true
    · rw [if_pos h1, if_pos h1]
    · rw [if_neg h1, if_neg h1]
      by_cases h2 : stopObs (2 * n + 1) = true
      · rw [if_pos h2, if_pos h2]
        simp [sleepsOf]
      · rw [if_neg h2, if_neg h2]
        have h3 := ih (min (d * cfg.multiplier) cfg.maximum) (n + 1)
        simp only [sleepsOf, List.filterMap_cons] at h3 ⊢
        rw [h3]

/-- Every attempt in the trace happened at an iteration whose `while` guard
observed the stop flag unset. -/
theorem attempt_mem_guard_unset (cfg : BackoffConfig)
    (errors stopObs : ℕ → Bool) :
    ∀ fuel d i n b,
      SupEvent.attempt n b ∈
        IngestClient.runWithRetries cfg errors stopObs fuel d i →
      stopObs (2 * n) = false := by
  intro fuel
  induction fuel with
  | zero =>
    intro d i n b h
    simp [IngestClient.runWithRetries] at h
  | succ m ih =>
    intro d i n b h
    unfold IngestClient.runWithRetries at h
    by_cases h1 : stopObs (2 * i) = true
    · rw [if_pos h1] at h
      simp at h
    · rw [if_neg h1] at h
      rcases List.mem_cons.mp h with heq | hmem
      · injection heq with hn hb
        subst hn
        exact Bool.not_eq_true _ ▸ Bool.eq_false_iff.mpr h1
      · by_cases h2 : stopObs (2 * i + 1) = true
        · rw [if_pos h2] at hmem
          simp at hmem
        · rw [if_neg h2] at hmem
          rcases List.mem_cons.mp hmem with heq2 | hmem2
          · exact absurd heq2 (by simp)
          · exact ih _ _ n b hmem2

/-- Once the stop flag is set it stays set across later checks. -/
theorem stopObs_mono (stopObs : ℕ → Bool)
    (hmono : ∀ k, stopObs k = true → stopObs (k + 1) = true) :
    ∀ j k, j ≤ k → stopObs j = true → stopObs k = true := by
  intro j k hjk h
  induction hjk with
  | refl => exact h
  | step _ ih => exact hmono _ ih

/-- C9: a producer whose `run_once` is supervised by
`IngestClient._run_with_retries` is, while the stop flag stays unset,
retried at every iteration (attempt indices `0, 1, …`) with sleep delays
`initial, min(initial×multiplier, maximum), …` — the backoff sequence, every
element from the second onwards capped at the maximum (second conjunct);
the delays are independent of whether the attempts error or succeed, so the
delay is never reset after a successful `run_once` (third conjunct); and
once the stop flag is observed set at some check, no attempt at or after
that check occurs (fourth conjunct, with the flag monotone once set). -/
theorem claim_C9_backoff_supervisor (cfg : BackoffConfig)
    (errors errors2 stopObs : ℕ → Bool) (fuel : ℕ) (d : ℚ) (n0 : ℕ)
    (hmono : ∀ k, stopObs k = true → stopObs (k + 1) = true) :
    ((∀ k, stopObs k = false) →
      attemptsOf (IngestClient.traceFromStart cfg errors stopObs fuel)
        = List.range fuel ∧
      sleepsOf (IngestClient.traceFromStart cfg errors stopObs fuel)
        = (List.range fuel).map cfg.delaySeq) ∧
    (∀ n, 1 ≤ n → cfg.delaySeq n ≤ cfg.maximum) ∧
    sleepsOf (IngestClient.runWithRetries cfg errors stopObs fuel d n0)
      = sleepsOf (IngestClient.runWithRetries cfg errors2 stopObs fuel d n0) ∧
    (∀ j n b, stopObs j = true →
      SupEvent.attempt n b ∈
        IngestClient.traceFromStart cfg errors stopObs fuel →
      2 * n < j) := by
  refine ⟨?_, delaySeq_le_maximum cfg, sleepsOf_outcome_independent cfg
    errors errors2 stopObs fuel d n0, ?_⟩
  · intro hstop
    constructor
    · rw [IngestClient.traceFromStart,
        attemptsOf_no_stop cfg errors stopObs hstop fuel 0 cfg.initial,
        List.range_eq_range' fuel]
    · rw [IngestClient.traceFromStart,
        show cfg.initial = cfg.delaySeq 0 from rfl,
        sleepsOf_no_stop cfg errors stopObs hstop fuel 0 0,
        List.range_eq_range' fuel]
  · intro j n b hj hmem
    have hunset := attempt_mem_guard_unset cfg errors stopObs fuel
      cfg.initial 0 n b hmem
    by_contra hge
    push_neg at hge
    have := stopObs_mono stopObs hmono j (2 * n) hge hj
    rw [hunset] at this
    exact Bool.false_ne_true this

/-- The default backoff configuration (initial 1s, maximum 30s,
multiplier 2). -/
def cfg9 : BackoffConfig := {}

/-- A producer whose every attempt errors. -/
def errAll : ℕ → Bool := fun _ => true

/-- A producer whose every attempt succeeds. -/
def okAll : ℕ → Bool := fun _ => false

/-- A stop flag that is never set. -/
def stopNever : ℕ → Bool := fun _ => false

/-- A stop flag observed set from the fifth check onwards. -/
def stop5 : ℕ → Bool := fun k => decide (5 ≤ k)

/-- Witness for C9: with the default configuration and an always-erroring
producer, three observed iterations attempt at 0, 1, 2 and sleep 1, 2, 4
seconds; the fifth delay is within the 30-second cap; the sleeps are the
same for an always-succeeding producer; and an attempt made while the flag
was down precedes the check at which the flag is seen set. -/
theorem claim_C9_witness :
    attemptsOf (IngestClient.traceFromStart cfg9 errAll stopNever 3)
      = [0, 1, 2] ∧
    sleepsOf (IngestClient.traceFromStart cfg9 errAll stopNever 3)
      = [1, 2, 4] ∧
    cfg9.delaySeq 5 ≤ cfg9.maximum ∧
    sleepsOf (IngestClient.runWithRetries cfg9 errAll stopNever 3
        cfg9.initial 0)
      = sleepsOf (IngestClient.runWithRetries cfg9 okAll stopNever 3
        cfg9.initial 0) ∧
    2 * 0 < 7 := by
  have h := claim_C9_backoff_supervisor cfg9 errAll okAll stopNever 3
    cfg9.initial 0 (fun k hk => by simp [stopNever] at hk)
  have h5 := claim_C9_backoff_supervisor cfg9 errAll okAll stop5 1
    cfg9.initial 0
    (fun k hk => by
      simp only [stop5, decide_eq_true_eq] at hk ⊢
      omega)
  obtain ⟨ha, hs⟩ := h.1 (fun k => rfl)
  refine ⟨?_, ?_, h.2.1 5 (by norm_num), h.2.2.1, ?_⟩
  · rw [ha]
    rfl
  · rw [hs]
    have d0 : cfg9.delaySeq 0 = 1 := rfl
    have d1 : cfg9.delaySeq 1 = 2 := by
      show min (cfg9.delaySeq 0 * cfg9.multiplier) cfg9.maximum = 2
      rw [d0, show cfg9.multiplier = 2 from rfl,
        show cfg9.maximum = 30 from rfl]
      norm_num [min_def]
    have d2 : cfg9.delaySeq 2 = 4 := by
      show min (cfg9.delaySeq 1 * cfg9.multiplier) cfg9.maximum = 4
      rw [d1, show cfg9.multiplier = 2 from rfl,
        show cfg9.maximum = 30 from rfl]
      norm_num [min_def]
    rw [show List.range 3 = [0, 1, 2] from rfl]
    simp [d0, d1, d2]
  · refine h5.2.2.2 7 0 (errAll 0) (by simp [stop5]) ?_
    simp [IngestClient.traceFromStart, IngestClient.runWithRetries, stop5]
